import Mathlib

/-!
Shallow embedding of the user-story storage module of the project-mcp
repository, together with proofs about its operations.

The repository carries two successive iterations of the storage module:

* `V1` embeds `src/src/storage.ts`, whose records carry only the legacy
  `played` flag and whose `reorderStory` partitions the collection into
  played and unplayed subsequences.

* `V2` embeds the later progress-state iteration of the same module (the
  variant exporting `updateStoryProgressState`, which the imports of
  `src/src/index.ts` require).  It normalizes records on load and keeps
  the `played` flag in sync with the `progressState` enum.

File I/O is modelled by an explicit read outcome (`ReadFileResult`): the
backing file is either read and parsed (successfully or not) or the read
throws a Node error carrying a `code` string.  Timestamps are natural
numbers; the uuid drawn by `addUserStory` is passed in as an argument.
Each mutating operation returns the record it would return to the caller
together with the full collection it writes back, `none` when it does not
write.
-/

deriving instance DecidableEq for Except

namespace ProjectMcp

/-- Story workflow status, from `src/src/user-story.ts` (`StoryStatus`). -/
inductive StoryStatus
  | NEW
  | IN_PROGRESS
  | REVIEW
  | DONE
  | BLOCKED
deriving DecidableEq

/-- Story priority, from `src/src/user-story.ts` (`StoryPriority`). -/
inductive StoryPriority
  | LOW
  | MEDIUM
  | HIGH
  | CRITICAL
deriving DecidableEq

/-- Story lifecycle state, from the progress-state iteration of
`user-story.ts` (`StoryProgressState`). -/
inductive StoryProgressState
  | UNSTARTED
  | STARTED
  | PLAYED
deriving DecidableEq

/-- A user story record, from the progress-state iteration of
`user-story.ts` (`UserStory`).  `assignee`, `points`, `played` and
`progressState` are optional fields there; the `V1` module ignores
`progressState` entirely (its own record type lacks the field). -/
structure UserStory where
  id : String
  title : String
  description : String
  status : StoryStatus
  priority : StoryPriority
  assignee : Option String
  points : Option Int
  played : Option Bool
  progressState : Option StoryProgressState
  createdAt : Nat
  updatedAt : Nat
deriving DecidableEq

/-- JavaScript truthiness of an optional boolean field: an absent
(`undefined`) value and `false` are falsy, `true` is truthy. -/
def truthy (b : Option Bool) : Bool :=
  b.getD false

/-- Errors surfaced by the storage module: the two reorder domain errors
(one per module iteration), the out-of-range error carrying the largest
valid position it names, and a propagated I/O error carrying the Node
error code. -/
inductive StorageError
  | cannotReorderPlayed
  | notUnstarted
  | positionOutOfBounds (maxPosition : Int)
  | ioError (code : String)
deriving DecidableEq

/-- Outcome of reading the backing file: the file was read and its
contents parsed as a story array (`some`) or raised a `SyntaxError`
(`none`); or `fs.readFile` threw a Node error with the given `code`. -/
inductive ReadFileResult
  | fileContent (parsed : Option (List UserStory))
  | readError (code : String)
deriving DecidableEq

/-- The Node error code for a missing file. -/
def enoent : String := "ENOENT"

/-- The spec's effective lifecycle state test: a record counts as
Unstarted according to `progressState` when that field is present, and
according to the negation of `played` when it is absent. -/
def effectiveUnstarted (s : UserStory) : Bool :=
  match s.progressState with
  | some ps => ps == StoryProgressState.UNSTARTED
  | none => !truthy s.played

/-- The unplayed subsequence of a collection, in order (the records whose
legacy `played` flag is falsy). -/
def unplayedOf (stories : List UserStory) : List UserStory :=
  stories.filter (fun s => !truthy s.played)

/-- The played subsequence of a collection, in order. -/
def playedOf (stories : List UserStory) : List UserStory :=
  stories.filter (fun s => truthy s.played)

namespace V1

/-- Embeds `reorderStory` from `src/src/storage.ts` (lines 107 to 168):
locate the target by id (`null` when absent), reject played targets,
bounds-check the position against the unplayed subsequence, return the
record unchanged without writing when the position equals its current
unplayed index, and otherwise splice the record to the new position,
rebuild the collection as played records followed by the reordered
unplayed records, refresh the moved record's `updatedAt`, and write. -/
def reorderStory (stories : List UserStory) (storyId : String) (newPosition : Int)
    (now : Nat) : Except StorageError (Option UserStory × Option (List UserStory)) :=
  match stories.find? (fun s => s.id == storyId) with
  | none => .ok (none, none)
  | some story =>
    if truthy story.played then
      .error .cannotReorderPlayed
    else
      let unplayedStories := stories.filter (fun s => !truthy s.played)
      let currentUnplayedIndex := unplayedStories.findIdx (fun s => s.id == storyId)
      if newPosition < 0 ∨ (unplayedStories.length : Int) ≤ newPosition then
        .error (.positionOutOfBounds ((unplayedStories.length : Int) - 1))
      else if (currentUnplayedIndex : Int) = newPosition then
        .ok (some story, none)
      else
        let storyToMove := (unplayedStories[currentUnplayedIndex]?).getD story
        let reordered := List.insertIdx newPosition.toNat storyToMove
          (unplayedStories.eraseIdx currentUnplayedIndex)
        let playedStories := stories.filter (fun s => truthy s.played)
        let updatedStories := playedStories ++ reordered
        let updatedStory := { storyToMove with updatedAt := now }
        let updatedIndex := updatedStories.findIdx (fun s => s.id == storyId)
        .ok (some updatedStory, some (updatedStories.set updatedIndex updatedStory))

end V1

namespace V2

/-- Embeds the load normalization of the progress-state `readUserStories`:
when `progressState` is present it is authoritative and `played` is
recomputed from it; when absent it is inferred from the truthiness of
`played`. -/
def normalizeStory (story : UserStory) : UserStory :=
  match story.progressState with
  | some ps => { story with played := some (ps == StoryProgressState.PLAYED) }
  | none =>
    let progressState :=
      if truthy story.played then StoryProgressState.PLAYED
      else StoryProgressState.UNSTARTED
    { story with progressState := some progressState }

/-- Embeds the progress-state `readUserStories`: a missing file (ENOENT)
or a JSON `SyntaxError` yields the empty collection, any other read error
propagates, and parsed records are normalized. -/
def readUserStories (r : ReadFileResult) : Except StorageError (List UserStory) :=
  match r with
  | .fileContent (some stories) => .ok (stories.map normalizeStory)
  | .fileContent none => .ok []
  | .readError code => if code == enoent then .ok [] else .error (.ioError code)

/-- The caller-supplied creation fields of the progress-state
`addUserStory` (its `Omit` of the server-assigned fields). -/
structure NewStoryData where
  title : String
  description : String
  status : StoryStatus
  priority : StoryPriority
  assignee : Option String
  points : Option Int
deriving DecidableEq

/-- Embeds the progress-state `addUserStory`: builds the new record with
the freshly drawn uuid (`newId` here), `played = false`,
`progressState = UNSTARTED` and both timestamps equal to `now`, appends
it to the collection and writes.  Returns the new record and the written
collection. -/
def addUserStory (stories : List UserStory) (storyData : NewStoryData)
    (newId : String) (now : Nat) : UserStory × List UserStory :=
  let newStory : UserStory :=
    { id := newId
      title := storyData.title
      description := storyData.description
      status := storyData.status
      priority := storyData.priority
      assignee := storyData.assignee
      points := storyData.points
      played := some false
      progressState := some StoryProgressState.UNSTARTED
      createdAt := now
      updatedAt := now }
  (newStory, stories ++ [newStory])

/-- Embeds the progress-state `markStoryPlayed`: locate by id (`null`
when absent), set `played` to the given boolean, set `progressState` to
`PLAYED` or `UNSTARTED` accordingly, refresh `updatedAt`, write. -/
def markStoryPlayed (stories : List UserStory) (storyId : String) (played : Bool)
    (now : Nat) : Option UserStory × Option (List UserStory) :=
  match stories.find? (fun s => s.id == storyId) with
  | none => (none, none)
  | some story =>
    let storyIndex := stories.findIdx (fun s => s.id == storyId)
    let updated := { story with
      played := some played
      progressState := some (if played then StoryProgressState.PLAYED
        else StoryProgressState.UNSTARTED)
      updatedAt := now }
    (some updated, some (stories.set storyIndex updated))

/-- Embeds the progress-state `reorderStory`.  Eligibility follows the
source ternary `story.progressState ? story.progressState !== UNSTARTED :
story.played`; the reorderable subsequence keeps records that are
Unstarted by `progressState` or, when the field is absent, unplayed; the
remaining records are grouped in front of the reordered subsequence. -/
def reorderStory (stories : List UserStory) (storyId : String) (newPosition : Int)
    (now : Nat) : Except StorageError (Option UserStory × Option (List UserStory)) :=
  match stories.find? (fun s => s.id == storyId) with
  | none => .ok (none, none)
  | some story =>
    let notEligible : Bool :=
      match story.progressState with
      | some ps => ps != StoryProgressState.UNSTARTED
      | none => truthy story.played
    if notEligible then
      .error .notUnstarted
    else
      let unstartedStories := stories.filter (fun s =>
        s.progressState == some StoryProgressState.UNSTARTED ||
          (s.progressState == none && !truthy s.played))
      let currentUnstartedIndex := unstartedStories.findIdx (fun s => s.id == storyId)
      if newPosition < 0 ∨ (unstartedStories.length : Int) ≤ newPosition then
        .error (.positionOutOfBounds ((unstartedStories.length : Int) - 1))
      else if (currentUnstartedIndex : Int) = newPosition then
        .ok (some story, none)
      else
        let storyToMove := (unstartedStories[currentUnstartedIndex]?).getD story
        let reordered := List.insertIdx newPosition.toNat storyToMove
          (unstartedStories.eraseIdx currentUnstartedIndex)
        let otherStories := stories.filter (fun s =>
          (match s.progressState with
            | some ps => ps != StoryProgressState.UNSTARTED
            | none => false) ||
          (s.progressState == none && truthy s.played))
        let updatedStories := otherStories ++ reordered
        let updatedStory := { storyToMove with updatedAt := now }
        let updatedIndex := updatedStories.findIdx (fun s => s.id == storyId)
        .ok (some updatedStory, some (updatedStories.set updatedIndex updatedStory))

/-- The optional fields of an edit request (the zod schema of
`edit_user_story` in `src/src/index.ts` minus `storyId`). -/
structure StoryPatch where
  title : Option String
  description : Option String
  status : Option StoryStatus
  priority : Option StoryPriority
  assignee : Option String
  points : Option Int
deriving DecidableEq

/-- Modelled from the spec: the `editUserStory` storage function is
imported by `src/src/index.ts` but absent from the storage-module
sources.  Following the spec's Edit operation (and the repository's
implementation plan for it, which agree): locate the record by id
(not-found yields an empty result), spread the supplied fields over the
existing record so a supplied value wins and an absent one preserves the
old field, always refresh `updatedAt`, and write. -/
def editUserStory (stories : List UserStory) (storyId : String) (updates : StoryPatch)
    (now : Nat) : Option UserStory × Option (List UserStory) :=
  match stories.find? (fun s => s.id == storyId) with
  | none => (none, none)
  | some story =>
    let storyIndex := stories.findIdx (fun s => s.id == storyId)
    let updatedStory := { story with
      title := updates.title.getD story.title
      description := updates.description.getD story.description
      status := updates.status.getD story.status
      priority := updates.priority.getD story.priority
      assignee := updates.assignee.or story.assignee
      points := updates.points.or story.points
      updatedAt := now }
    (some updatedStory, some (stories.set storyIndex updatedStory))

end V2

/-! Concrete sample data used by the witness theorems. -/

/-- Sample id string. -/
def idA : String := "A"

/-- Sample id string. -/
def idB : String := "B"

/-- Sample id string. -/
def idC : String := "C"

/-- Sample Node error code for a permission failure. -/
def eacces : String := "EACCES"

/-- Builds a story record with the given id, `played` flag and
progress state, all other fields fixed. -/
def mkStory (id : String) (played : Option Bool)
    (ps : Option StoryProgressState) : UserStory :=
  { id := id
    title := id
    description := id
    status := StoryStatus.NEW
    priority := StoryPriority.MEDIUM
    assignee := none
    points := none
    played := played
    progressState := ps
    createdAt := 0
    updatedAt := 0 }

/-- Three Unstarted stories created in order, as in the spec's
reordering scenario. -/
def storyA : UserStory := mkStory idA (some false) (some StoryProgressState.UNSTARTED)

/-- Second sample Unstarted story. -/
def storyB : UserStory := mkStory idB (some false) (some StoryProgressState.UNSTARTED)

/-- Third sample Unstarted story. -/
def storyC : UserStory := mkStory idC (some false) (some StoryProgressState.UNSTARTED)

/-- The sample collection of the reordering scenario. -/
def sampleStories : List UserStory := [storyA, storyB, storyC]

/-- Sample id string for a freshly created story. -/
def idD : String := "D"

/-- Sample creation input. -/
def sampleInput : V2.NewStoryData :=
  { title := idD
    description := idD
    status := StoryStatus.NEW
    priority := StoryPriority.MEDIUM
    assignee := none
    points := none }

/-- Sample record in the Started lifecycle state with a falsy `played`
flag. -/
def startedStory : UserStory := mkStory idA (some false) (some StoryProgressState.STARTED)

/-- Sample patch supplying only `points`. -/
def pointsPatch : V2.StoryPatch :=
  { title := none
    description := none
    status := none
    priority := none
    assignee := none
    points := some 5 }

/-!
Theorems.  General list lemmas used by the reordering proofs come first,
then the claim theorems, each with a witness instantiating it at the
concrete sample data.
-/

/-- Inserting at a position inside the list splits it as take, element,
drop. -/
theorem insertIdx_eq_take_cons_drop {α : Type} (n : Nat) (a : α) (l : List α)
    (h : n ≤ l.length) :
    List.insertIdx n a l = l.take n ++ a :: l.drop n := by
  induction n generalizing l with
  | zero => simp [List.insertIdx_zero]
  | succ n ih =>
    cases l with
    | nil => simp at h
    | cons b t =>
      simp only [List.insertIdx_succ_cons, List.take_succ_cons, List.drop_succ_cons,
        List.cons_append, List.cons.injEq, true_and]
      exact ih t (by simpa using h)

/-- Inserting inside the list is a permutation of consing. -/
theorem insertIdx_perm_cons {α : Type} (n : Nat) (a : α) (l : List α) (h : n ≤ l.length) :
    List.Perm (List.insertIdx n a l) (a :: l) := by
  rw [insertIdx_eq_take_cons_drop n a l h]
  have h2 : l.take n ++ l.drop n = l := List.take_append_drop n l
  conv_rhs => rw [← h2]
  exact List.perm_middle

/-- Mapping commutes with insertion. -/
theorem map_insertIdx {α β : Type} (f : α → β) (n : Nat) (a : α) (l : List α) :
    (List.insertIdx n a l).map f = List.insertIdx n (f a) (l.map f) := by
  induction n generalizing l with
  | zero => simp [List.insertIdx_zero]
  | succ n ih =>
    cases l with
    | nil => simp [List.insertIdx_succ_nil]
    | cons b t => simp [List.insertIdx_succ_cons, ih]

/-- Removing an index and consing the removed element back is a
permutation of the original list. -/
theorem cons_getElem_eraseIdx_perm {α : Type} (l : List α) (n : Nat) (h : n < l.length) :
    List.Perm (l[n] :: l.eraseIdx n) l := by
  rw [List.eraseIdx_eq_take_drop_succ]
  have hd : l.drop n = l[n] :: l.drop (n + 1) := List.drop_eq_getElem_cons h
  have h2 : l.take n ++ l[n] :: l.drop (n + 1) = l := by
    rw [← hd, List.take_append_drop]
  conv_rhs => rw [← h2]
  exact List.perm_middle.symm

/-- Setting an index to the value it already holds is the identity. -/
theorem set_getElem?_self {α : Type} {l : List α} {n : Nat} {a : α}
    (h : l[n]? = some a) : l.set n a = l := by
  apply List.ext_getElem?
  intro i
  rw [List.getElem?_set]
  rcases eq_or_ne n i with rfl | hi
  · have hlt : n < l.length := by
      by_contra hge
      rw [List.getElem?_eq_none (Nat.le_of_not_lt hge)] at h
      cases h
    simp [hlt, h]
  · simp [hi]

/-- In a duplicate-free list the element removed by `eraseIdx` does not
survive the removal. -/
theorem not_mem_eraseIdx_self {α : Type} {l : List α} (hn : l.Nodup) {n : Nat}
    (h : n < l.length) : l[n] ∉ l.eraseIdx n := by
  intro hmem
  rw [List.eraseIdx_eq_take_drop_succ] at hmem
  rcases List.mem_append.mp hmem with h1 | h2
  · obtain ⟨i, hi, hget⟩ := List.getElem_of_mem h1
    rw [List.getElem_take] at hget
    have hin : i < n := by
      have := hi
      simp [List.length_take] at this
      omega
    have : i = n := hn.getElem_inj_iff.mp hget
    omega
  · obtain ⟨i, hi, hget⟩ := List.getElem_of_mem h2
    rw [List.getElem_drop] at hget
    have : n + 1 + i = n := hn.getElem_inj_iff.mp hget
    omega

/-- Overwriting, at the index found by `findIdx`, the single matching
element just inserted into a match-free list: the result is the same
insertion with the replacement element. -/
theorem append_insertIdx_set_findIdx {α : Type} (p : α → Bool) (pls er : List α)
    (a b : α) (n : Nat)
    (hpls : ∀ x ∈ pls, p x = false) (her : ∀ x ∈ er, p x = false)
    (hpa : p a = true) (hn : n ≤ er.length) :
    (pls ++ List.insertIdx n a er).set ((pls ++ List.insertIdx n a er).findIdx p) b =
      pls ++ List.insertIdx n b er := by
  rw [insertIdx_eq_take_cons_drop n a er hn, insertIdx_eq_take_cons_drop n b er hn]
  have htake : ∀ x ∈ er.take n, p x = false := fun x hx => her x (List.take_subset n er hx)
  have h1 : pls.findIdx p = pls.length := List.findIdx_eq_length_of_false hpls
  have h2 : (er.take n).findIdx p = (er.take n).length := List.findIdx_eq_length_of_false htake
  have hlt : (er.take n).length = n := by simp [List.length_take, Nat.min_eq_left hn]
  rw [List.findIdx_append, h1, if_neg (lt_irrefl _), List.findIdx_append, h2,
    if_neg (lt_irrefl _), List.findIdx_cons, hpa]
  simp only [cond_true, hlt, Nat.zero_add]
  rw [← List.append_assoc]
  rw [List.set_append_right _ _ (by simp [hlt, List.length_append]; omega)]
  have hidx : n + pls.length - (pls ++ er.take n).length = 0 := by
    simp [List.length_append, hlt]
    omega
  rw [hidx, List.set_cons_zero, List.append_assoc]

/-- Claim C2: on load every persisted record is normalized: when
`progressState` is present, `played` is recomputed as
`progressState == Played` (and `progressState` kept); when it is absent,
`progressState` is set to `Played` exactly when `played` is truthy and
to `Unstarted` otherwise (and `played` left as stored). -/
theorem readUserStories_normalizes :
    (∀ raws : List UserStory,
      V2.readUserStories (.fileContent (some raws)) = .ok (raws.map V2.normalizeStory)) ∧
    (∀ r : UserStory, ∀ ps, r.progressState = some ps →
      (V2.normalizeStory r).progressState = some ps ∧
      (V2.normalizeStory r).played = some (ps == StoryProgressState.PLAYED)) ∧
    (∀ r : UserStory, r.progressState = none →
      (V2.normalizeStory r).progressState =
        some (if truthy r.played then StoryProgressState.PLAYED
          else StoryProgressState.UNSTARTED) ∧
      (V2.normalizeStory r).played = r.played) := by
  refine ⟨fun raws => rfl, ?_, ?_⟩
  · intro r ps h
    unfold V2.normalizeStory
    rw [h]
    exact ⟨rfl, rfl⟩
  · intro r h
    unfold V2.normalizeStory
    rw [h]
    exact ⟨rfl, rfl⟩

/-- Witness for C2: a stored Started record with a stale truthy `played`
flag is normalized to an unplayed Started record, and a legacy record
without `progressState` but with `played = true` is normalized to
`Played`. -/
theorem readUserStories_normalizes_witness :
    (V2.normalizeStory (mkStory idA (some true) (some StoryProgressState.STARTED))).played =
      some false ∧
    (V2.normalizeStory (mkStory idB (some true) none)).progressState =
      some StoryProgressState.PLAYED := by
  constructor
  · exact (readUserStories_normalizes.2.1
      (mkStory idA (some true) (some StoryProgressState.STARTED))
      StoryProgressState.STARTED rfl).2
  · exact (readUserStories_normalizes.2.2 (mkStory idB (some true) none) rfl).1

/-- Claim C8: loading returns the empty collection when the file is
absent (ENOENT) and when its contents fail to parse, raising no error;
any other read error propagates. -/
theorem readUserStories_fail_open :
    V2.readUserStories (.readError enoent) = .ok [] ∧
    V2.readUserStories (.fileContent none) = .ok [] ∧
    ∀ code : String, code ≠ enoent →
      V2.readUserStories (.readError code) = .error (.ioError code) := by
  refine ⟨rfl, rfl, ?_⟩
  intro code h
  unfold V2.readUserStories
  simp [h]

/-- Witness for C8: a permission error propagates to the caller. -/
theorem readUserStories_fail_open_witness :
    V2.readUserStories (.readError eacces) = .error (.ioError eacces) :=
  readUserStories_fail_open.2.2 eacces (by decide)

/-- Claim C3: after `markStoryPlayed(id, b)` on a present id, the updated
record satisfies `played == (progressState == Played)`; `b = true` sets
`progressState` to `Played` and `b = false` to `Unstarted`; the updated
record is written back at the target's index. -/
theorem markStoryPlayed_syncs_played_progressState (stories : List UserStory)
    (storyId : String) (b : Bool) (now : Nat) (story : UserStory)
    (hfind : stories.find? (fun s => s.id == storyId) = some story) :
    ∃ r w, V2.markStoryPlayed stories storyId b now = (some r, some w) ∧
      r.played = some b ∧
      r.progressState =
        some (if b then StoryProgressState.PLAYED else StoryProgressState.UNSTARTED) ∧
      (r.played = some true ↔ r.progressState = some StoryProgressState.PLAYED) ∧
      w = stories.set (stories.findIdx (fun s => s.id == storyId)) r := by
  unfold V2.markStoryPlayed
  simp only [hfind]
  refine ⟨_, _, rfl, rfl, rfl, ?_, rfl⟩
  cases b <;> simp

/-- Witness for C3: marking the middle sample story played. -/
theorem markStoryPlayed_syncs_witness :
    ∃ r w, V2.markStoryPlayed sampleStories idB true 7 = (some r, some w) ∧
      r.played = some true ∧
      r.progressState =
        some (if true then StoryProgressState.PLAYED else StoryProgressState.UNSTARTED) ∧
      (r.played = some true ↔ r.progressState = some StoryProgressState.PLAYED) ∧
      w = sampleStories.set (sampleStories.findIdx (fun s => s.id == idB)) r :=
  markStoryPlayed_syncs_played_progressState sampleStories idB true 7 storyB (by decide)

/-- Claim C5: `addUserStory` returns a record carrying the freshly drawn
id (distinct from every existing id when the draw is fresh), with
`played = false`, `progressState = Unstarted` and equal timestamps, and
writes the prior collection unchanged with the new record appended. -/
theorem addUserStory_fresh_unstarted (stories : List UserStory) (d : V2.NewStoryData)
    (newId : String) (now : Nat)
    (hfresh : newId ∉ stories.map (fun s => s.id)) :
    (V2.addUserStory stories d newId now).1.id = newId ∧
    (V2.addUserStory stories d newId now).1.id ∉ stories.map (fun s => s.id) ∧
    (V2.addUserStory stories d newId now).1.played = some false ∧
    (V2.addUserStory stories d newId now).1.progressState =
      some StoryProgressState.UNSTARTED ∧
    (V2.addUserStory stories d newId now).1.createdAt =
      (V2.addUserStory stories d newId now).1.updatedAt ∧
    (V2.addUserStory stories d newId now).2 =
      stories ++ [(V2.addUserStory stories d newId now).1] :=
  ⟨rfl, hfresh, rfl, rfl, rfl, rfl⟩

/-- Witness for C5: creating a fourth story over the sample collection. -/
theorem addUserStory_fresh_unstarted_witness :
    (V2.addUserStory sampleStories sampleInput idD 7).1.id = idD ∧
    (V2.addUserStory sampleStories sampleInput idD 7).1.id ∉
      sampleStories.map (fun s => s.id) ∧
    (V2.addUserStory sampleStories sampleInput idD 7).1.played = some false ∧
    (V2.addUserStory sampleStories sampleInput idD 7).1.progressState =
      some StoryProgressState.UNSTARTED ∧
    (V2.addUserStory sampleStories sampleInput idD 7).1.createdAt =
      (V2.addUserStory sampleStories sampleInput idD 7).1.updatedAt ∧
    (V2.addUserStory sampleStories sampleInput idD 7).2 =
      sampleStories ++ [(V2.addUserStory sampleStories sampleInput idD 7).1] :=
  addUserStory_fresh_unstarted sampleStories sampleInput idD 7 (by decide)

/-- Claim C4: for a present id, `reorderStory` raises the
can-only-reorder-Unstarted domain error exactly when the target's
effective lifecycle state (progressState when present, else the negation
of `played`) is not Unstarted, whatever position is requested. -/
theorem reorderStory_rejects_non_unstarted (stories : List UserStory) (storyId : String)
    (newPosition : Int) (now : Nat) (story : UserStory)
    (hfind : stories.find? (fun s => s.id == storyId) = some story) :
    V2.reorderStory stories storyId newPosition now = .error .notUnstarted ↔
      effectiveUnstarted story = false := by
  have hE : (match story.progressState with
      | some ps => ps != StoryProgressState.UNSTARTED
      | none => truthy story.played) = !effectiveUnstarted story := by
    unfold effectiveUnstarted
    cases story.progressState <;> simp [bne]
  unfold V2.reorderStory
  simp only [hfind, hE]
  by_cases h : effectiveUnstarted story = false
  · simp [h]
  · rw [Bool.not_eq_false] at h
    simp only [h, Bool.not_true, Bool.false_eq_true, if_false]
    constructor
    · intro hcontra
      split_ifs at hcontra
      simp_all
    · intro hcontra
      exact absurd hcontra (by simp)

/-- Witness for C4: reordering a Started (yet unplayed) story is
rejected. -/
theorem reorderStory_rejects_non_unstarted_witness :
    V2.reorderStory [startedStory] idA 0 7 = .error .notUnstarted :=
  (reorderStory_rejects_non_unstarted [startedStory] idA 0 7 startedStory
    (by decide)).mpr (by decide)

/-- Claim C9: the edit operation merges exactly the supplied fields into
the located record (a supplied value wins, an absent one preserves the
old value), leaves `progressState`, `played`, `id` and `createdAt`
untouched, refreshes `updatedAt`, writes the record back at the target's
index and leaves every other position of the collection unchanged. -/
theorem editUserStory_partial_merge (stories : List UserStory) (storyId : String)
    (patch : V2.StoryPatch) (now : Nat) (story : UserStory)
    (hfind : stories.find? (fun s => s.id == storyId) = some story) :
    ∃ r w, V2.editUserStory stories storyId patch now = (some r, some w) ∧
      r.title = patch.title.getD story.title ∧
      r.description = patch.description.getD story.description ∧
      r.status = patch.status.getD story.status ∧
      r.priority = patch.priority.getD story.priority ∧
      r.assignee = patch.assignee.or story.assignee ∧
      r.points = patch.points.or story.points ∧
      r.progressState = story.progressState ∧
      r.played = story.played ∧
      r.id = story.id ∧
      r.createdAt = story.createdAt ∧
      r.updatedAt = now ∧
      w = stories.set (stories.findIdx (fun s => s.id == storyId)) r ∧
      ∀ j : Nat, j ≠ stories.findIdx (fun s => s.id == storyId) →
        w[j]? = stories[j]? := by
  unfold V2.editUserStory
  simp only [hfind]
  refine ⟨_, _, rfl, rfl, rfl, rfl, rfl, rfl, rfl, rfl, rfl, rfl, rfl, rfl, rfl, ?_⟩
  intro j hj
  exact List.getElem?_set_ne (Ne.symm hj)

/-- Witness for C9: editing the middle sample story with only a points
patch keeps title, description and status, sets points, bumps
`updatedAt`, and leaves the other positions untouched. -/
theorem editUserStory_partial_merge_witness :
    ∃ r w, V2.editUserStory sampleStories idB pointsPatch 7 = (some r, some w) ∧
      r.title = pointsPatch.title.getD storyB.title ∧
      r.description = pointsPatch.description.getD storyB.description ∧
      r.status = pointsPatch.status.getD storyB.status ∧
      r.priority = pointsPatch.priority.getD storyB.priority ∧
      r.assignee = pointsPatch.assignee.or storyB.assignee ∧
      r.points = pointsPatch.points.or storyB.points ∧
      r.progressState = storyB.progressState ∧
      r.played = storyB.played ∧
      r.id = storyB.id ∧
      r.createdAt = storyB.createdAt ∧
      r.updatedAt = 7 ∧
      w = sampleStories.set (sampleStories.findIdx (fun s => s.id == idB)) r ∧
      ∀ j : Nat, j ≠ sampleStories.findIdx (fun s => s.id == idB) →
        w[j]? = sampleStories[j]? :=
  editUserStory_partial_merge sampleStories idB pointsPatch 7 storyB (by decide)

/-- Claim C7: reordering an unplayed record to the position it already
holds among the unplayed records returns the record unchanged (same
`updatedAt`) and performs no write. -/
theorem reorderStory_same_position_noop (stories : List UserStory) (storyId : String)
    (newPosition : Int) (now : Nat) (story : UserStory)
    (hfind : stories.find? (fun s => s.id == storyId) = some story)
    (hunplayed : truthy story.played = false)
    (hpos : newPosition =
      ((unplayedOf stories).findIdx (fun s => s.id == storyId) : Int)) :
    V1.reorderStory stories storyId newPosition now = .ok (some story, none) := by
  have hp : (story.id == storyId) = true := by
    have := List.find?_some (p := fun s : UserStory => s.id == storyId) hfind
    simpa using this
  have hmem : story ∈ unplayedOf stories :=
    List.mem_filter.mpr ⟨List.mem_of_find?_eq_some hfind, by simp [hunplayed]⟩
  have hcur : (unplayedOf stories).findIdx (fun s => s.id == storyId) <
      (unplayedOf stories).length :=
    List.findIdx_lt_length_of_exists ⟨story, hmem, hp⟩
  subst hpos
  unfold unplayedOf at hcur ⊢
  unfold V1.reorderStory
  simp only [hfind, hunplayed, Bool.false_eq_true, if_false]
  rw [if_neg (by omega)]
  simp

/-- Witness for C7: the last sample story is already at unplayed
position 2; reordering it there is a no-op. -/
theorem reorderStory_same_position_noop_witness :
    V1.reorderStory sampleStories idC 2 7 = .ok (some storyC, none) :=
  reorderStory_same_position_noop sampleStories idC 2 7 storyC (by decide) (by decide)
    (by decide)

/-- Claim C6: for an unplayed target, `reorderStory` raises the
out-of-range domain error naming the largest valid position exactly when
the requested position is negative or at least the number of unplayed
records. -/
theorem reorderStory_position_bounds (stories : List UserStory) (storyId : String)
    (newPosition : Int) (now : Nat) (story : UserStory)
    (hfind : stories.find? (fun s => s.id == storyId) = some story)
    (hunplayed : truthy story.played = false) :
    V1.reorderStory stories storyId newPosition now =
        .error (.positionOutOfBounds (((unplayedOf stories).length : Int) - 1)) ↔
      (newPosition < 0 ∨ ((unplayedOf stories).length : Int) ≤ newPosition) := by
  unfold unplayedOf
  unfold V1.reorderStory
  simp only [hfind, hunplayed, Bool.false_eq_true, if_false]
  by_cases h : newPosition < 0 ∨
      (((stories.filter (fun s => !truthy s.played)).length : Nat) : Int) ≤ newPosition
  · rw [if_pos h]
    simp [h]
  · rw [if_neg h]
    constructor
    · intro hc
      split_ifs at hc
    · intro hc
      exact absurd hc h

/-- Witness for C6: with three unplayed sample stories, position 3 (one
past the end) and position -1 both raise the error naming bound 2. -/
theorem reorderStory_position_bounds_witness :
    V1.reorderStory sampleStories idA 3 7 =
        .error (.positionOutOfBounds (((unplayedOf sampleStories).length : Int) - 1)) ∧
    V1.reorderStory sampleStories idA (-1) 7 =
        .error (.positionOutOfBounds (((unplayedOf sampleStories).length : Int) - 1)) :=
  ⟨(reorderStory_position_bounds sampleStories idA 3 7 storyA (by decide)
      (by decide)).mpr (by decide),
   (reorderStory_position_bounds sampleStories idA (-1) 7 storyA (by decide)
      (by decide)).mpr (by decide)⟩

/-- Claim C1: a successful reorder of an unplayed record (distinct ids,
in-range position different from the current unplayed index) persists
exactly the played records in their original relative order followed by
the unplayed subsequence with the target removed from its old index and
reinserted (with refreshed `updatedAt`) at the requested index. -/
theorem reorderStory_moves_unplayed_subsequence (stories : List UserStory) (storyId : String)
    (newPosition : Int) (now : Nat) (story : UserStory)
    (hnodup : (stories.map (fun s => s.id)).Nodup)
    (hfind : stories.find? (fun s => s.id == storyId) = some story)
    (hunplayed : truthy story.played = false)
    (h0 : 0 ≤ newPosition)
    (hlen : newPosition < ((unplayedOf stories).length : Int))
    (hne : newPosition ≠ ((unplayedOf stories).findIdx (fun s => s.id == storyId) : Int)) :
    V1.reorderStory stories storyId newPosition now =
      .ok (some { story with updatedAt := now },
        some (playedOf stories ++
          List.insertIdx newPosition.toNat { story with updatedAt := now }
            ((unplayedOf stories).eraseIdx
              ((unplayedOf stories).findIdx (fun s => s.id == storyId))))) := by
  have hp : (story.id == storyId) = true := by
    have := List.find?_some (p := fun s : UserStory => s.id == storyId) hfind
    simpa using this
  have hid : story.id = storyId := by simpa using hp
  have hmemS : story ∈ stories := List.mem_of_find?_eq_some hfind
  have hmem : story ∈ unplayedOf stories :=
    List.mem_filter.mpr ⟨hmemS, by simp [hunplayed]⟩
  have hcur : (unplayedOf stories).findIdx (fun s => s.id == storyId) <
      (unplayedOf stories).length :=
    List.findIdx_lt_length_of_exists ⟨story, hmem, hp⟩
  have huniq : ∀ x ∈ stories, (x.id == storyId) = true → x = story := by
    intro x hx hpx
    refine List.inj_on_of_nodup_map hnodup hx hmemS ?_
    rw [hid]
    simpa using hpx
  unfold unplayedOf playedOf at *
  unfold V1.reorderStory
  simp only [hfind, hunplayed, Bool.false_eq_true, if_false]
  set ups := stories.filter (fun s => !truthy s.played) with hups
  set cur := ups.findIdx (fun s => s.id == storyId) with hcurdef
  have hget : ups[cur] = story := by
    refine huniq _ ((List.filter_sublist stories).subset (List.getElem_mem hcur)) ?_
    exact List.findIdx_getElem (w := hcur)
  have hget2 : ups[cur]? = some story := by
    rw [List.getElem?_eq_getElem hcur, hget]
  have hupsNodup : ups.Nodup := (List.Nodup.of_map _ hnodup).filter _
  have hstorynot : story ∉ ups.eraseIdx cur := by
    rw [← hget]
    exact not_mem_eraseIdx_self hupsNodup hcur
  have her : ∀ x ∈ ups.eraseIdx cur, (x.id == storyId) = false := by
    intro x hx
    by_contra hpx
    rw [Bool.not_eq_false] at hpx
    have hxS : x ∈ stories :=
      (List.filter_sublist stories).subset ((List.eraseIdx_sublist ups cur).subset hx)
    have hxstory := huniq x hxS hpx
    exact hstorynot (hxstory ▸ hx)
  have hpls : ∀ x ∈ stories.filter (fun s => truthy s.played), (x.id == storyId) = false := by
    intro x hx
    by_contra hpx
    rw [Bool.not_eq_false] at hpx
    obtain ⟨hxS, hxp⟩ := List.mem_filter.mp hx
    have hxstory := huniq x hxS hpx
    rw [hxstory, hunplayed] at hxp
    cases hxp
  have hn2 : newPosition.toNat ≤ (ups.eraseIdx cur).length := by
    rw [List.length_eraseIdx_of_lt hcur]
    omega
  rw [if_neg (by omega), if_neg (fun hc => hne hc.symm)]
  simp only [hget2, Option.getD_some]
  rw [append_insertIdx_set_findIdx (fun s : UserStory => s.id == storyId)
    (stories.filter (fun s => truthy s.played)) (ups.eraseIdx cur)
    story { story with updatedAt := now } newPosition.toNat hpls her hp hn2]

/-- Witness for C1: three Unstarted stories created in order A, B, C;
reordering C to position 0 persists the Unstarted order C, A, B. -/
theorem reorderStory_moves_unplayed_subsequence_witness :
    V1.reorderStory sampleStories idC 0 7 =
      .ok (some { storyC with updatedAt := 7 },
        some [{ storyC with updatedAt := 7 }, storyA, storyB]) := by
  rw [reorderStory_moves_unplayed_subsequence sampleStories idC 0 7 storyC (by decide)
    (by decide) (by decide) (by decide) (by decide) (by decide)]
  rfl

/-- Claim C10: every reorder call that writes a collection preserves the
number of records and the multiset of story ids: nothing is lost or
duplicated by the remove, reinsert and played-before-unplayed
reassembly. -/
theorem reorderStory_preserves_ids (stories : List UserStory) (storyId : String)
    (newPosition : Int) (now : Nat) (r : UserStory) (w : List UserStory)
    (hok : V1.reorderStory stories storyId newPosition now = .ok (some r, some w)) :
    List.Perm (w.map (fun s => s.id)) (stories.map (fun s => s.id)) ∧
      w.length = stories.length := by
  unfold V1.reorderStory at hok
  cases hfind : stories.find? (fun s => s.id == storyId) with
  | none => rw [hfind] at hok; cases hok
  | some story =>
    rw [hfind] at hok
    simp only at hok
    split_ifs at hok with h1 h2 h3
    case pos => simp at hok
    simp only [Except.ok.injEq, Prod.mk.injEq, Option.some.injEq] at hok
    obtain ⟨hr, hw⟩ := hok
    have hunplayed : truthy story.played = false := by
      rw [Bool.not_eq_true] at h1
      exact h1
    have hp : (story.id == storyId) = true := by
      have := List.find?_some (p := fun s : UserStory => s.id == storyId) hfind
      simpa using this
    have hmemS : story ∈ stories := List.mem_of_find?_eq_some hfind
    have hmem : story ∈ stories.filter (fun s => !truthy s.played) :=
      List.mem_filter.mpr ⟨hmemS, by simp [hunplayed]⟩
    set ups := stories.filter (fun s => !truthy s.played) with hups
    set pls := stories.filter (fun s => truthy s.played) with hpls
    have hcur : ups.findIdx (fun s => s.id == storyId) < ups.length :=
      List.findIdx_lt_length_of_exists ⟨story, hmem, hp⟩
    set cur := ups.findIdx (fun s => s.id == storyId) with hcurdef
    set stm := ups[cur] with hstm
    have hget2 : ups[cur]? = some stm := List.getElem?_eq_getElem hcur
    rw [hget2] at hw
    simp only [Option.getD_some] at hw
    have hpstm : (stm.id == storyId) = true := List.findIdx_getElem (w := hcur)
    have hstmid : stm.id = storyId := by simpa using hpstm
    have hn2 : newPosition.toNat ≤ (ups.eraseIdx cur).length := by
      rw [List.length_eraseIdx_of_lt hcur]
      omega
    set n := newPosition.toNat with hn
    set er := ups.eraseIdx cur with herdef
    set big := pls ++ List.insertIdx n stm er with hbig
    have hstmmem : stm ∈ big := by
      rw [hbig]
      refine List.mem_append.mpr (Or.inr ?_)
      rw [List.mem_insertIdx hn2]
      exact Or.inl rfl
    have hbiglt : big.findIdx (fun s => s.id == storyId) < big.length :=
      List.findIdx_lt_length_of_exists ⟨stm, hstmmem, hpstm⟩
    have hmapset : w.map (fun s => s.id) = big.map (fun s => s.id) := by
      rw [← hw, List.map_set]
      apply set_getElem?_self
      rw [List.getElem?_map, List.getElem?_eq_getElem hbiglt]
      have : (big[big.findIdx (fun s => s.id == storyId)].id == storyId) = true :=
        List.findIdx_getElem (w := hbiglt)
      have hideq : big[big.findIdx (fun s => s.id == storyId)].id = storyId := by
        simpa using this
      simp [hideq, hstmid]
    have hperm : List.Perm (big.map (fun s => s.id)) (stories.map (fun s => s.id)) := by
      rw [hbig, List.map_append, map_insertIdx]
      have p1 : List.Perm (List.insertIdx n stm.id (er.map (fun s => s.id)))
          (stm.id :: er.map (fun s => s.id)) :=
        insertIdx_perm_cons n stm.id (er.map (fun s => s.id)) (by simpa using hn2)
      have p2 : List.Perm (stm :: er) ups := by
        rw [hstm, herdef]
        exact cons_getElem_eraseIdx_perm ups cur hcur
      have p3 : List.Perm (stm.id :: er.map (fun s => s.id)) (ups.map (fun s => s.id)) := by
        have := p2.map (fun s => s.id)
        simpa using this
      have p4 : List.Perm (pls.map (fun s => s.id) ++ ups.map (fun s => s.id))
          (stories.map (fun s => s.id)) := by
        rw [← List.map_append]
        exact (List.filter_append_perm (fun s => truthy s.played) stories).map _
      exact ((List.Perm.append_left _ (p1.trans p3)).trans p4)
    constructor
    · rw [hmapset]
      exact hperm
    · have := (hmapset ▸ hperm).length_eq
      simpa using this

/-- Witness for C10: the successful sample reorder writes a collection
with the same length and the same ids as before. -/
theorem reorderStory_preserves_ids_witness :
    List.Perm (([{ storyC with updatedAt := 7 }, storyA, storyB]).map (fun s => s.id))
      (sampleStories.map (fun s => s.id)) ∧
    ([{ storyC with updatedAt := 7 }, storyA, storyB] : List UserStory).length =
      sampleStories.length :=
  reorderStory_preserves_ids sampleStories idC 0 7 { storyC with updatedAt := 7 }
    [{ storyC with updatedAt := 7 }, storyA, storyB] (by decide)

end ProjectMcp
